import Mathlib

/-!
Shallow embedding of the restaurant point-of-sale backend's core logic:
the tax/total calculator and bill endpoints (`src/routes/billpage.ts`),
the order-status aggregation and inventory decrement of the order routes,
and the expired-bill reaper (`src/cron/deleteExpiredBills.ts`).

Conventions of the embedding:
* JS numbers that hold money/rates are modelled as `ℚ` (the code routes all
  money arithmetic through Decimal.js, which is exact decimal arithmetic at
  these magnitudes; `toNumber()` at the boundary is value-preserving for
  2-decimal-place results).
* A JS value that may be `null`/`undefined` is an `Option`.
* `Decimal.toDecimalPlaces(2)` uses Decimal.js's default `ROUND_HALF_UP`,
  which rounds a half-way value away from zero; `round2` mirrors that.
* Database rows are records, tables are lists, handlers are pure functions
  from the fetched state to the written state.
-/

namespace Restaurant

/-- The helper `round(val) = val.toDecimalPlaces(2).toNumber()` from billpage.ts.
Decimal.js default rounding mode is `ROUND_HALF_UP`: round to the nearest
multiple of `1/100`, a tie rounding away from zero. -/
def round2 (q : ℚ) : ℚ :=
  if q < 0 then -((⌊-q * 100 + 1 / 2⌋ : ℚ) / 100) else (⌊q * 100 + 1 / 2⌋ : ℚ) / 100

/-- The `taxRates` argument of `calculateTotals`: each field is a percentage
or `null`/absent (`none`). -/
structure TaxRates where
  vatLow : Option ℚ
  vatHigh : Option ℚ
  serviceTax : Option ℚ
  serviceCharge : Option ℚ
deriving DecidableEq

/-- One conditional `taxRates.x ? baseAmount.mul(taxRates.x).div(100) : new Decimal(0)`
from `calculateTotals`.  JS truthiness: `null`/`undefined` and `0` are falsy,
so a rate of `0` also takes the `Decimal(0)` branch. -/
def rateContribution (baseAmount : ℚ) (rate : Option ℚ) : ℚ :=
  match rate with
  | some v => if v = 0 then 0 else baseAmount * v / 100
  | none => 0

/-- The record returned by `calculateTotals`. -/
structure TotalsResult where
  vatLowAmount : ℚ
  vatHighAmount : ℚ
  serviceTaxAmount : ℚ
  serviceChargeAmount : ℚ
  totalAmount : ℚ
deriving DecidableEq

/-- The function `calculateTotals` from billpage.ts lines 69-104: the four tax amounts are
computed in full precision; each returned tax amount is rounded on its own,
while `totalAmount` rounds the full-precision sum
`vatLow + vatHigh + serviceTax + serviceCharge + base` once. -/
def calculateTotals (baseAmount : ℚ) (taxRates : TaxRates) : TotalsResult :=
  let vatLowAmount := rateContribution baseAmount taxRates.vatLow
  let vatHighAmount := rateContribution baseAmount taxRates.vatHigh
  let serviceTaxAmount := rateContribution baseAmount taxRates.serviceTax
  let serviceChargeAmount := rateContribution baseAmount taxRates.serviceCharge
  { vatLowAmount := round2 vatLowAmount
    vatHighAmount := round2 vatHighAmount
    serviceTaxAmount := round2 serviceTaxAmount
    serviceChargeAmount := round2 serviceChargeAmount
    totalAmount :=
      round2 (vatLowAmount + vatHighAmount + serviceTaxAmount + serviceChargeAmount + baseAmount) }

/-- A persisted `OrderItem` row: product reference (nullable), name and price
snapshots, quantity and per-item status. -/
structure OrderItemRec where
  productId : Option ℤ
  name : String
  price : ℚ
  quantity : ℚ
  status : String
deriving DecidableEq

/-- The reduction `order.items.reduce((sum, item) => sum.plus(Decimal(item.price).mul(item.quantity)), 0)`:
the base amount of a bill. -/
def baseAmountOf (items : List OrderItemRec) : ℚ :=
  items.foldl (fun sum item => sum + item.price * item.quantity) 0

/-- A persisted `Bill` row. -/
structure BillRec where
  orderId : ℤ
  vatLow : Option ℚ
  vatHigh : Option ℚ
  serviceTax : Option ℚ
  serviceCharge : Option ℚ
  totalAmount : ℚ
  billStoreLink : Option String
  billStorePublicId : Option String
  modifiedBillStoreLink : Option String
  modifiedBillStorePublicId : Option String
  expiresAt : Option ℤ
deriving DecidableEq

/-- The tax rates stored on a bill row, in the shape `calculateTotals` takes. -/
def billRates (b : BillRec) : TaxRates :=
  ⟨b.vatLow, b.vatHigh, b.serviceTax, b.serviceCharge⟩

/-- The spec invariant on a persisted bill: its `totalAmount` matches
`calculateTotals` applied to the order's current base amount and the bill's
own stored tax rates. -/
def billConsistent (items : List OrderItemRec) (b : BillRec) : Prop :=
  b.totalAmount = (calculateTotals (baseAmountOf items) (billRates b)).totalAmount

/-- Endpoint `POST /bill` (billpage.ts lines 143-163): creates the bill row with the
request's tax rates and `totalAmount = calculateTotals(base, taxRates).totalAmount`.
In a Prisma `create`, a field set from `x ?? undefined` with `x` null simply
stays at its default `null`, so the stored rates equal the request rates. -/
def createBill (orderId : ℤ) (items : List OrderItemRec) (taxRates : TaxRates) : BillRec :=
  { orderId := orderId
    vatLow := taxRates.vatLow
    vatHigh := taxRates.vatHigh
    serviceTax := taxRates.serviceTax
    serviceCharge := taxRates.serviceCharge
    totalAmount := (calculateTotals (baseAmountOf items) taxRates).totalAmount
    billStoreLink := none
    billStorePublicId := none
    modifiedBillStoreLink := none
    modifiedBillStorePublicId := none
    expiresAt := none }

/-- Endpoint `PUT /bill/:orderId/update-charges` (billpage.ts lines 441-487): the new
total is computed from the request body's rates (absent/null read as falsy by
`calculateTotals`), but each stored rate column is updated with `rate ?? undefined`,
and in a Prisma `update` an `undefined` field is left unchanged — so a
null/absent request rate keeps the previously stored rate. -/
def updateCharges (items : List OrderItemRec) (b : BillRec) (req : TaxRates) : BillRec :=
  let totalAmount := (calculateTotals (baseAmountOf items) req).totalAmount
  { b with
    vatLow := match req.vatLow with | some v => some v | none => b.vatLow
    vatHigh := match req.vatHigh with | some v => some v | none => b.vatHigh
    serviceTax := match req.serviceTax with | some v => some v | none => b.serviceTax
    serviceCharge := match req.serviceCharge with | some v => some v | none => b.serviceCharge
    totalAmount := totalAmount }

/-- Endpoint `PUT /bill/:orderId/store-link`, existing-bill branch (billpage.ts lines
545-564): only the (modified) link, its public id and `expiresAt` change. -/
def storeLinkUpdate (b : BillRec) (billStoreLink cloudinaryPublicId : String)
    (isModified : Bool) (now : ℤ) : BillRec :=
  let expiresAt : Option ℤ := some (now + 24 * 60 * 60 * 1000)
  if isModified then
    { b with
      modifiedBillStoreLink := some billStoreLink
      modifiedBillStorePublicId := some cloudinaryPublicId
      expiresAt := expiresAt }
  else
    { b with
      billStoreLink := some billStoreLink
      billStorePublicId := some cloudinaryPublicId
      expiresAt := expiresAt }

/-- Endpoint `PUT /bill/:orderId/store-link`, no-bill branch (billpage.ts lines 565-592):
creates the bill with no tax rates and `totalAmount = round(baseAmount)`. -/
def storeLinkCreate (orderId : ℤ) (items : List OrderItemRec)
    (billStoreLink cloudinaryPublicId : String) (isModified : Bool) (now : ℤ) : BillRec :=
  { orderId := orderId
    vatLow := none
    vatHigh := none
    serviceTax := none
    serviceCharge := none
    totalAmount := round2 (baseAmountOf items)
    billStoreLink := if isModified then none else some billStoreLink
    billStorePublicId := if isModified then none else some cloudinaryPublicId
    modifiedBillStoreLink := if isModified then some billStoreLink else none
    modifiedBillStorePublicId := if isModified then some cloudinaryPublicId else none
    expiresAt := some (now + 24 * 60 * 60 * 1000) }

/-- Endpoint `PUT /bill/:orderId/update-items` (billpage.ts lines 635-683): replaces the
order's items, creates the bill with `totalAmount = round(base)` and no rates if
absent, then recomputes the total from the bill's stored rates and the new base. -/
def updateItems (orderId : ℤ) (billOpt : Option BillRec) (newItems : List OrderItemRec) : BillRec :=
  let baseAmount := baseAmountOf newItems
  let bill :=
    match billOpt with
    | some b => b
    | none =>
        { orderId := orderId
          vatLow := none
          vatHigh := none
          serviceTax := none
          serviceCharge := none
          totalAmount := round2 baseAmount
          billStoreLink := none
          billStorePublicId := none
          modifiedBillStoreLink := none
          modifiedBillStorePublicId := none
          expiresAt := none }
  let totalAmount := (calculateTotals baseAmount (billRates bill)).totalAmount
  { bill with totalAmount := totalAmount }

/-- A persisted `Order` row (the fields the claims touch). -/
structure OrderRec where
  id : ℤ
  status : String
  totalAmount : ℚ
  items : List OrderItemRec
deriving DecidableEq

/-- The status aggregation appearing in the order routes:
`items.every(i => i.status === "Completed") && items.length > 0 ? "Completed" : "Pending"`. -/
def deriveOrderStatus (items : List OrderItemRec) : String :=
  let allItemsCompleted := items.all fun item => item.status == "Completed"
  if allItemsCompleted ∧ 0 < items.length then "Completed" else "Pending"

/-- Endpoint `PATCH /:orderId/status`: writes the request body's `status` onto the order
row as-is, without reading the items. -/
def patchOrderStatus (o : OrderRec) (status : String) : OrderRec :=
  { o with status := status }

/-- Endpoint `PATCH /:orderId/items/:productId/status`: 404s unless some item carries the
product id; otherwise sets the matching items' status, recomputes the order
status from the updated items and persists it. -/
def patchItemStatus (o : OrderRec) (productId : ℤ) (status : String) : Option OrderRec :=
  if o.items.any fun item => item.productId == some productId then
    let items := o.items.map fun item =>
      if item.productId == some productId then { item with status := status } else item
    some { o with items := items, status := deriveOrderStatus items }
  else
    none

/-- The order write inside `POST /bill` (billpage.ts lines 165-168): the order
status is set to `"Completed"` unconditionally and its total to the bill total. -/
def createBillOrderUpdate (o : OrderRec) (totalAmount : ℚ) : OrderRec :=
  { o with status := "Completed", totalAmount := totalAmount }

/-- Endpoint `PUT /:orderId` (order update): replaces the items with the request's cart
items and then persists the status derived from them. -/
def putOrderItems (o : OrderRec) (newItems : List OrderItemRec) (totalAmount : ℚ) : OrderRec :=
  { o with items := newItems, totalAmount := totalAmount, status := deriveOrderStatus newItems }

/-! ### Expired-bill reaper (`src/cron/deleteExpiredBills.ts`) -/

/-- The slice of a bill row the reaper reads. -/
structure BillRow where
  id : ℤ
  billStorePublicId : Option String
  expiresAt : Option ℤ
deriving DecidableEq

/-- Observable actions of one reaper run, in program order. -/
inductive ReaperEvent where
  | cloudinaryDestroy (publicId : String)
  | cloudinaryDeleteLogged (publicId : String)
  | cloudinaryFailLogged (publicId : String)
  | rowDeleted (id : ℤ)
deriving DecidableEq

/-- The function `deleteFromCloudinary`: posts the destroy request; on failure it logs and
returns normally (the `try`/`catch` inside the function swallows the error),
on success it logs the deletion.  `cloudFails pid` says whether the external
call for `pid` throws. -/
def deleteFromCloudinary (cloudFails : String → Bool) (publicId : String) : List ReaperEvent :=
  if cloudFails publicId then
    [.cloudinaryDestroy publicId, .cloudinaryFailLogged publicId]
  else
    [.cloudinaryDestroy publicId, .cloudinaryDeleteLogged publicId]

/-- The reaper's selection predicate: `findMany({ where: { expiresAt: { lte: now } } })`.
A row whose `expiresAt` is null is never selected by `lte`. -/
def isExpired (now : ℤ) (b : BillRow) : Bool :=
  match b.expiresAt with
  | some t => decide (t ≤ now)
  | none => false

/-- The `if (bill.billStorePublicId) { await deleteFromCloudinary(...) }` step:
the external delete is attempted only when a public id is stored. -/
def cloudEventsOf (cloudFails : String → Bool) (b : BillRow) : List ReaperEvent :=
  match b.billStorePublicId with
  | some pid => deleteFromCloudinary cloudFails pid
  | none => []

/-- The `for (const bill of expiredBills)` loop.  The whole loop lives inside a
single `try`; `deleteFromCloudinary` never throws, but a `prisma.bill.delete`
failure (`deleteFails bill.id`) propagates to the outer `catch`, ending the run.
Returns the events that happened and whether the run was aborted. -/
def reaperLoop (cloudFails : String → Bool) (deleteFails : ℤ → Bool) :
    List BillRow → List ReaperEvent × Bool
  | [] => ([], false)
  | b :: rest =>
    if deleteFails b.id then
      (cloudEventsOf cloudFails b, true)
    else
      let (events, aborted) := reaperLoop cloudFails deleteFails rest
      (cloudEventsOf cloudFails b ++ .rowDeleted b.id :: events, aborted)

/-- One run of the hourly cron callback: select the expired bills, then loop. -/
def reaperRun (now : ℤ) (bills : List BillRow)
    (cloudFails : String → Bool) (deleteFails : ℤ → Bool) : List ReaperEvent × Bool :=
  reaperLoop cloudFails deleteFails (bills.filter (isExpired now))

/-- The ids whose rows a run deleted, in order. -/
def deletedIds (events : List ReaperEvent) : List ℤ :=
  events.filterMap fun e =>
    match e with
    | .rowDeleted i => some i
    | _ => none

/-! ### Inventory decrement on order placement (order routes, `POST /`) -/

/-- One `{name, quantity}` ingredient requirement from a product's metadata.
`quantity` is free-form in the source; `none` models a value for which
`Number(ing.quantity)` is `NaN`. -/
structure Ingredient where
  name : String
  quantity : Option ℚ
deriving DecidableEq

/-- The shape of `dish.metadata` as the handler probes it. -/
inductive RecipeMetadata where
  /-- `dish.metadata` is absent/falsy. -/
  | missing
  /-- `dish.metadata` is a string; `none` means `JSON.parse` threw (giving `{}`),
  `some l` means the parsed object's `ingredients` list (absent list read as `[]`). -/
  | str (parsed : Option (List Ingredient))
  /-- `dish.metadata` is already an object; `none` means it has no `ingredients` field. -/
  | obj (ingredients : Option (List Ingredient))
deriving DecidableEq

/-- The extraction `ingredients = metadataObj?.ingredients || []` after the string/object probing. -/
def ingredientsOf : RecipeMetadata → List Ingredient
  | .missing => []
  | .str none => []
  | .str (some l) => l
  | .obj none => []
  | .obj (some l) => l

/-- The slice of a product row the inventory loop reads. -/
structure Dish where
  id : ℤ
  metadata : RecipeMetadata

/-- One cart line item of the order payload. -/
structure CartItem where
  productId : ℤ
  quantity : ℚ

/-- An inventory row. -/
structure InventoryItem where
  name : String
  businessId : ℤ
  quantity : ℚ
deriving DecidableEq

/-- The write `prisma.inventoryItem.updateMany({where: {name, businessId}, data: {quantity: {decrement}}})`:
every row matching the ingredient name and business id is decremented. -/
def decrementInventory (inv : List InventoryItem) (name : String) (businessId : ℤ)
    (amount : ℚ) : List InventoryItem :=
  inv.map fun it =>
    if it.name = name ∧ it.businessId = businessId then
      { it with quantity := it.quantity - amount }
    else it

/-- The body of `for (const ing of ingredients)`: `quantityToDeduct = Number(ing.quantity) * item.quantity`,
applied only when it is not `NaN`; a `NaN` quantity is skipped silently. -/
def applyIngredient (businessId : ℤ) (itemQuantity : ℚ) (inv : List InventoryItem)
    (ing : Ingredient) : List InventoryItem :=
  match ing.quantity with
  | none => inv
  | some q => decrementInventory inv ing.name businessId (q * itemQuantity)

/-- The body of `for (const item of cart_items)`: fetch the dish, extract its
ingredient list (empty when the dish is missing), and fold the ingredient loop. -/
def applyCartItem (products : ℤ → Option Dish) (businessId : ℤ) (inv : List InventoryItem)
    (item : CartItem) : List InventoryItem :=
  let ingredients :=
    match products item.productId with
    | some dish => ingredientsOf dish.metadata
    | none => []
  ingredients.foldl (applyIngredient businessId item.quantity) inv

/-- The whole inventory-decrement pass of order placement. -/
def applyOrderInventory (products : ℤ → Option Dish) (businessId : ℤ)
    (inv : List InventoryItem) (cart : List CartItem) : List InventoryItem :=
  cart.foldl (applyCartItem products businessId) inv

/-- Spec-side: the total numeric requirement an ingredient list places on the
inventory record named `name`, for one line item of quantity `itemQuantity`
(a `NaN` ingredient quantity contributes nothing). -/
def ingredientRequirement (name : String) (itemQuantity : ℚ) (ings : List Ingredient) : ℚ :=
  (ings.map fun ing => if ing.name = name then ing.quantity.getD 0 * itemQuantity else 0).sum

/-- Spec-side: the total decrement an order's cart asks of the inventory record
named `name`. -/
def requiredDeduction (products : ℤ → Option Dish) (cart : List CartItem) (name : String) : ℚ :=
  (cart.map fun item =>
    match products item.productId with
    | some dish => ingredientRequirement name item.quantity (ingredientsOf dish.metadata)
    | none => 0).sum

/-- Pointwise subtraction of a (name, businessId)-determined amount from every
inventory row; the normal form in which the decrement loops are analysed. -/
def subMap (f : String → ℤ → ℚ) (inv : List InventoryItem) : List InventoryItem :=
  inv.map fun it => { it with quantity := it.quantity - f it.name it.businessId }

/-! ### `GET /bill/:orderId` expiry masking (billpage.ts lines 383-414) -/

/-- The in-handler masking: when the fetched bill has a (non-null) `expiresAt`
strictly before now, the response's `billStoreLink` and `modifiedBillStoreLink`
are nulled; nothing else changes and nothing is written back. -/
def maskExpiredLinks (now : ℤ) (bill : BillRec) : BillRec :=
  if (match bill.expiresAt with
      | some t => decide (t < now)
      | none => false) then
    { bill with billStoreLink := none, modifiedBillStoreLink := none }
  else bill

/-- The read path of `GET /bill/:orderId`: returns the (possibly masked) bill
found for the order, and leaves the bills table untouched. -/
def getBillHandler (now : ℤ) (bills : List BillRec) (orderId : ℤ) :
    List BillRec × Option BillRec :=
  (bills, (bills.find? fun b => b.orderId == orderId).map (maskExpiredLinks now))

/-! ### Spec-side definitions, written from the spec's words, for comparison -/

/-- Spec §4.1: "Each tax amount = `baseAmount * rate / 100`", an absent/null
rate meaning zero contribution. -/
def specTaxAmount (baseAmount : ℚ) (rate : Option ℚ) : ℚ :=
  baseAmount * rate.getD 0 / 100

/-- The total-amount policy the code actually implements: the four
full-precision tax amounts and the base are summed first, and the sum is
rounded once at the end. -/
def sumThenRoundTotal (baseAmount : ℚ) (taxRates : TaxRates) : ℚ :=
  round2 (baseAmount + specTaxAmount baseAmount taxRates.vatLow +
    specTaxAmount baseAmount taxRates.vatHigh +
    specTaxAmount baseAmount taxRates.serviceTax +
    specTaxAmount baseAmount taxRates.serviceCharge)

/-- Spec §4.1's rounding policy, stated on its own: round to 2 decimal places,
half up (nearest multiple of `1/100`, ties toward `+∞`). -/
def roundHalfUp2 (q : ℚ) : ℚ :=
  (⌊q * 100 + 1 / 2⌋ : ℚ) / 100

/-- Componentwise order on `calculateTotals` results. -/
def resultLE (t₁ t₂ : TotalsResult) : Prop :=
  t₁.vatLowAmount ≤ t₂.vatLowAmount ∧ t₁.vatHighAmount ≤ t₂.vatHighAmount ∧
    t₁.serviceTaxAmount ≤ t₂.serviceTaxAmount ∧
    t₁.serviceChargeAmount ≤ t₂.serviceChargeAmount ∧ t₁.totalAmount ≤ t₂.totalAmount

/-- A rate entry is within `[0,100]` or null. -/
def rateOk (rate : Option ℚ) : Prop :=
  ∀ v, rate = some v → 0 ≤ v ∧ v ≤ 100

/-- All four rate entries are within `[0,100]` or null (spec §4.1). -/
def ratesOk (r : TaxRates) : Prop :=
  rateOk r.vatLow ∧ rateOk r.vatHigh ∧ rateOk r.serviceTax ∧ rateOk r.serviceCharge

/-- Order `r₁ ≤ r₂` ratewise, reading an absent/null rate as `0` (its contribution). -/
def ratesLE (r₁ r₂ : TaxRates) : Prop :=
  r₁.vatLow.getD 0 ≤ r₂.vatLow.getD 0 ∧ r₁.vatHigh.getD 0 ≤ r₂.vatHigh.getD 0 ∧
    r₁.serviceTax.getD 0 ≤ r₂.serviceTax.getD 0 ∧
    r₁.serviceCharge.getD 0 ≤ r₂.serviceCharge.getD 0

/-! ## Helper lemmas -/

theorem rateContribution_eq (b : ℚ) (r : Option ℚ) :
    rateContribution b r = b * r.getD 0 / 100 := by
  cases r with
  | none => simp [rateContribution]
  | some v =>
    by_cases hv : v = 0 <;> simp [rateContribution, hv]

theorem round2_nonneg_eq (q : ℚ) (h : 0 ≤ q) : round2 q = roundHalfUp2 q := by
  rw [round2, roundHalfUp2, if_neg (not_lt.mpr h)]

theorem round2_mono {q₁ q₂ : ℚ} (h : q₁ ≤ q₂) : round2 q₁ ≤ round2 q₂ := by
  unfold round2
  split_ifs with h₁ h₂
  · have hle : -q₂ * 100 + 1 / 2 ≤ -q₁ * 100 + 1 / 2 := by linarith
    have hf : (⌊-q₂ * 100 + 1 / 2⌋ : ℚ) ≤ (⌊-q₁ * 100 + 1 / 2⌋ : ℚ) := by
      exact_mod_cast Int.floor_mono hle
    linarith
  · have hfl : (0 : ℚ) ≤ (⌊-q₁ * 100 + 1 / 2⌋ : ℚ) := by
      have : (0 : ℤ) ≤ ⌊-q₁ * 100 + 1 / 2⌋ := Int.floor_nonneg.mpr (by linarith)
      exact_mod_cast this
    have hfr : (0 : ℚ) ≤ (⌊q₂ * 100 + 1 / 2⌋ : ℚ) := by
      have : (0 : ℤ) ≤ ⌊q₂ * 100 + 1 / 2⌋ := Int.floor_nonneg.mpr (by push_neg at h₂; linarith)
      exact_mod_cast this
    linarith
  · exact absurd (lt_of_le_of_lt h ‹q₂ < 0›) ‹¬q₁ < 0›
  · have hle : q₁ * 100 + 1 / 2 ≤ q₂ * 100 + 1 / 2 := by linarith
    have hf : (⌊q₁ * 100 + 1 / 2⌋ : ℚ) ≤ (⌊q₂ * 100 + 1 / 2⌋ : ℚ) := by
      exact_mod_cast Int.floor_mono hle
    linarith

/-! ## Claims -/

/-- C1 (counterexample): it is false that `totalAmount` equals the base plus
the four individually rounded tax amounts.  At base `1/2` with two 5% rates,
each rounded tax amount is `0.03` (half-up from `0.025`), so the claimed total
is `0.56`, while `calculateTotals` rounds the full-precision sum `0.55` once
and returns `0.55`. -/
theorem c1_round_then_sum_counterexample :
    (calculateTotals (1 / 2) ⟨some 5, some 5, none, none⟩).totalAmount ≠
      1 / 2 + (calculateTotals (1 / 2) ⟨some 5, some 5, none, none⟩).vatLowAmount +
        (calculateTotals (1 / 2) ⟨some 5, some 5, none, none⟩).vatHighAmount +
        (calculateTotals (1 / 2) ⟨some 5, some 5, none, none⟩).serviceTaxAmount +
        (calculateTotals (1 / 2) ⟨some 5, some 5, none, none⟩).serviceChargeAmount := by
  simp only [calculateTotals, rateContribution, round2, Rat.floor_def]
  norm_num

/-- C1 (amended): for every base amount and rates, the `totalAmount` returned
by `calculateTotals` is the base plus the four full-precision tax amounts,
summed first and rounded once at the end (sum-then-round); the four
individually returned tax amounts are rounded, but their rounded values do not
enter the total. -/
theorem c1_total_is_sum_then_round (baseAmount : ℚ) (taxRates : TaxRates) :
    (calculateTotals baseAmount taxRates).totalAmount = sumThenRoundTotal baseAmount taxRates := by
  simp only [calculateTotals, sumThenRoundTotal, rateContribution_eq, specTaxAmount]
  congr 1
  ring

/-- C7: every tax amount returned by `calculateTotals` is
`baseAmount * rate / 100` rounded to 2 decimal places, an absent or null rate
contributing zero; the code's rounding (Decimal.js `ROUND_HALF_UP`) agrees with
the round-half-up policy on all non-negative amounts; and on the spec's example
`calculateTotals(100, {vatLow:10, vatHigh:5, serviceTax:0, serviceCharge:0})`
the vatLow amount is 10, the vatHigh amount is 5 and the total is 115. -/
theorem c7_tax_amount_formula :
    (∀ (b : ℚ) (r : TaxRates),
        (calculateTotals b r).vatLowAmount = round2 (specTaxAmount b r.vatLow) ∧
        (calculateTotals b r).vatHighAmount = round2 (specTaxAmount b r.vatHigh) ∧
        (calculateTotals b r).serviceTaxAmount = round2 (specTaxAmount b r.serviceTax) ∧
        (calculateTotals b r).serviceChargeAmount = round2 (specTaxAmount b r.serviceCharge)) ∧
    (∀ q : ℚ, 0 ≤ q → round2 q = roundHalfUp2 q) ∧
    (calculateTotals 100 ⟨some 10, some 5, some 0, some 0⟩).vatLowAmount = 10 ∧
    (calculateTotals 100 ⟨some 10, some 5, some 0, some 0⟩).vatHighAmount = 5 ∧
    (calculateTotals 100 ⟨some 10, some 5, some 0, some 0⟩).totalAmount = 115 := by
  refine ⟨fun b r => ?_, round2_nonneg_eq, ?_, ?_, ?_⟩
  · simp [calculateTotals, rateContribution_eq, specTaxAmount]
  all_goals
    simp only [calculateTotals, rateContribution, round2, Rat.floor_def]
    norm_num

/-- Witness for C7: the rounding-policy agreement instantiated at the
non-negative amount `1/40` (= `0.025`). -/
theorem c7_tax_amount_formula_witness :
    (0 : ℚ) ≤ 1 / 40 ∧ round2 (1 / 40) = roundHalfUp2 (1 / 40) :=
  ⟨by norm_num, c7_tax_amount_formula.2.1 (1 / 40) (by norm_num)⟩

theorem rateOk_none : rateOk none := fun _ hv => nomatch hv

theorem rateOk_some {v : ℚ} (h0 : 0 ≤ v) (h100 : v ≤ 100) : rateOk (some v) := by
  intro w hw
  cases hw
  exact ⟨h0, h100⟩

theorem rateOk_getD_nonneg {x : Option ℚ} (h : rateOk x) : 0 ≤ x.getD 0 := by
  cases x with
  | none => simp
  | some v => simpa using (h v rfl).1

theorem rateContribution_mono {b b' : ℚ} {x x' : Option ℚ} (hb0 : 0 ≤ b) (hbb : b ≤ b')
    (hx : rateOk x) (hxx : x.getD 0 ≤ x'.getD 0) :
    rateContribution b x ≤ rateContribution b' x' := by
  rw [rateContribution_eq, rateContribution_eq]
  have hx0 : 0 ≤ x.getD 0 := rateOk_getD_nonneg hx
  have hb'0 : 0 ≤ b' := le_trans hb0 hbb
  have h := mul_le_mul hbb hxx hx0 hb'0
  linarith

/-- C8: on non-negative base amounts and rate sets within `[0,100]` or null,
every component of `calculateTotals` (each tax amount and the total) is
monotonically non-decreasing in the base amount and in the rates; increasing a
single rate or the base with all other inputs fixed is the special case where
the remaining inputs are compared with themselves. -/
theorem c8_calculateTotals_monotone (b b' : ℚ) (r r' : TaxRates) (hb0 : 0 ≤ b) (hbb : b ≤ b')
    (hr : ratesOk r) (_hr' : ratesOk r') (hrr : ratesLE r r') :
    resultLE (calculateTotals b r) (calculateTotals b' r') := by
  obtain ⟨h₁, h₂, h₃, h₄⟩ := hrr
  have k₁ := rateContribution_mono hb0 hbb hr.1 h₁
  have k₂ := rateContribution_mono hb0 hbb hr.2.1 h₂
  have k₃ := rateContribution_mono hb0 hbb hr.2.2.1 h₃
  have k₄ := rateContribution_mono hb0 hbb hr.2.2.2 h₄
  refine ⟨round2_mono k₁, round2_mono k₂, round2_mono k₃, round2_mono k₄,
    round2_mono (by linarith)⟩

/-- Witness for C8: monotonicity at base 100 when vatLow rises from 5% to 10%. -/
theorem c8_calculateTotals_monotone_witness :
    resultLE (calculateTotals 100 ⟨some 5, none, none, none⟩)
      (calculateTotals 100 ⟨some 10, none, none, none⟩) :=
  c8_calculateTotals_monotone 100 100 ⟨some 5, none, none, none⟩ ⟨some 10, none, none, none⟩
    (by norm_num) (le_refl _)
    ⟨rateOk_some (by norm_num) (by norm_num), rateOk_none, rateOk_none, rateOk_none⟩
    ⟨rateOk_some (by norm_num) (by norm_num), rateOk_none, rateOk_none, rateOk_none⟩
    ⟨by norm_num, by norm_num, by norm_num, by norm_num⟩

/-- C2 (counterexample): the bill-total invariant is not maintained by
`PUT /bill/:orderId/update-charges` when a rate is absent/null in the request.
Start from a bill created with `vatLow = 10%` over a 100-rupee order
(`totalAmount = 110`); calling update-charges with an empty body recomputes
`totalAmount = 100` (absent rates contribute zero) while `vatLow ?? undefined`
leaves the stored `vatLow = 10` untouched, so the persisted bill no longer
satisfies `totalAmount = calculateTotals(base, stored rates).totalAmount`. -/
theorem c2_update_charges_counterexample :
    ¬ billConsistent [⟨none, "dish", 100, 1, "Pending"⟩]
        (updateCharges [⟨none, "dish", 100, 1, "Pending"⟩]
          (createBill 1 [⟨none, "dish", 100, 1, "Pending"⟩] ⟨some 10, none, none, none⟩)
          ⟨none, none, none, none⟩) := by
  simp only [billConsistent, updateCharges, createBill, billRates, baseAmountOf,
    List.foldl, calculateTotals, rateContribution, round2, Rat.floor_def]
  norm_num

/-- C2 (amended): the persisted `bill.totalAmount` equals
`calculateTotals(sum(price*quantity), stored rates).totalAmount` after bill
creation, after bill creation via the store-link endpoint, after a store-link
update on an existing consistent bill, after update-items, and after
update-charges whenever all four rates are present (non-null) in the request;
update-charges with an absent/null rate can break the invariant, since the
total is computed reading the absent rate as zero while the stored rate column
keeps its old value. -/
theorem c2_bill_total_invariant :
    (∀ (orderId : ℤ) (items : List OrderItemRec) (taxRates : TaxRates),
        billConsistent items (createBill orderId items taxRates)) ∧
    (∀ (orderId : ℤ) (items : List OrderItemRec) (link pid : String) (isModified : Bool)
        (now : ℤ), billConsistent items (storeLinkCreate orderId items link pid isModified now)) ∧
    (∀ (items : List OrderItemRec) (b : BillRec) (link pid : String) (isModified : Bool)
        (now : ℤ), billConsistent items b →
        billConsistent items (storeLinkUpdate b link pid isModified now)) ∧
    (∀ (orderId : ℤ) (billOpt : Option BillRec) (newItems : List OrderItemRec),
        billConsistent newItems (updateItems orderId billOpt newItems)) ∧
    (∀ (items : List OrderItemRec) (b : BillRec) (v₁ v₂ v₃ v₄ : ℚ),
        billConsistent items (updateCharges items b ⟨some v₁, some v₂, some v₃, some v₄⟩)) := by
  refine ⟨fun orderId items taxRates => ?_, fun orderId items link pid isModified now => ?_,
    fun items b link pid isModified now h => ?_, fun orderId billOpt newItems => ?_,
    fun items b v₁ v₂ v₃ v₄ => ?_⟩
  · simp [billConsistent, createBill, billRates]
  · simp [billConsistent, storeLinkCreate, billRates, calculateTotals, rateContribution]
  · cases isModified <;>
      simpa [billConsistent, storeLinkUpdate, billRates] using h
  · cases billOpt <;> simp [billConsistent, updateItems, billRates]
  · simp [billConsistent, updateCharges, billRates]

/-- Witness for C2: the store-link-update conjunct applied to a freshly created
(and hence consistent) bill over a one-item order. -/
theorem c2_bill_total_invariant_witness :
    billConsistent [⟨none, "dish", 100, 1, "Pending"⟩]
      (storeLinkUpdate (createBill 1 [⟨none, "dish", 100, 1, "Pending"⟩] ⟨some 10, none, none, none⟩)
        "https://x/y.png" "pub1" false 0) :=
  c2_bill_total_invariant.2.2.1 [⟨none, "dish", 100, 1, "Pending"⟩]
    (createBill 1 [⟨none, "dish", 100, 1, "Pending"⟩] ⟨some 10, none, none, none⟩)
    "https://x/y.png" "pub1" false 0
    (by simp [billConsistent, createBill, billRates])

/-- C3 (counterexample): `PATCH /:orderId/status` writes the client-supplied
status directly onto the order row.  On an order with a single `Pending` item,
patching the order status to `"Completed"` persists `"Completed"` even though
the status derived from the items is `"Pending"` — so the order status can be
set independently of the item statuses. -/
theorem c3_order_status_counterexample :
    (patchOrderStatus ⟨1, "Pending", 0, [⟨some 1, "dish", 10, 1, "Pending"⟩]⟩ "Completed").status ≠
      deriveOrderStatus
        (patchOrderStatus ⟨1, "Pending", 0, [⟨some 1, "dish", 10, 1, "Pending"⟩]⟩
          "Completed").items := by
  decide

/-- C3 (amended): the item-level status patch and the order-update endpoint do
recompute the order status from the (updated) items and persist it, but the
order-level status PATCH persists whatever status the request supplies, and
bill creation sets the order status to `"Completed"`, both without consulting
the item statuses. -/
theorem c3_status_recomputation :
    (∀ (o : OrderRec) (productId : ℤ) (status : String) (o' : OrderRec),
        patchItemStatus o productId status = some o' →
        o'.status = deriveOrderStatus o'.items) ∧
    (∀ (o : OrderRec) (newItems : List OrderItemRec) (t : ℚ),
        (putOrderItems o newItems t).status = deriveOrderStatus (putOrderItems o newItems t).items) ∧
    (∀ (o : OrderRec) (s : String), (patchOrderStatus o s).status = s) ∧
    (∀ (o : OrderRec) (t : ℚ), (createBillOrderUpdate o t).status = "Completed") := by
  refine ⟨fun o productId status o' h => ?_, fun o newItems t => rfl, fun o s => rfl,
    fun o t => rfl⟩
  unfold patchItemStatus at h
  split at h
  · cases h
    rfl
  · cases h

/-- Witness for C3: patching the only item of a one-item order to `"Completed"`
persists the derived order status. -/
theorem c3_status_recomputation_witness :
    patchItemStatus ⟨1, "Pending", 0, [⟨some 7, "dish", 10, 1, "Pending"⟩]⟩ 7 "Completed" =
        some ⟨1, "Completed", 0, [⟨some 7, "dish", 10, 1, "Completed"⟩]⟩ ∧
      (⟨1, "Completed", 0, [⟨some 7, "dish", 10, 1, "Completed"⟩]⟩ : OrderRec).status =
        deriveOrderStatus
          (⟨1, "Completed", 0, [⟨some 7, "dish", 10, 1, "Completed"⟩]⟩ : OrderRec).items :=
  ⟨rfl, c3_status_recomputation.1 ⟨1, "Pending", 0, [⟨some 7, "dish", 10, 1, "Pending"⟩]⟩ 7
    "Completed" ⟨1, "Completed", 0, [⟨some 7, "dish", 10, 1, "Completed"⟩]⟩ rfl⟩

/-- C4: the derived order status is `"Completed"` exactly when the item list is
non-empty and every item is `"Completed"`, and `"Pending"` otherwise; an order
with zero items derives `"Pending"`, a single-`Pending`-item order derives
`"Pending"`, and patching that item to `"Completed"` recomputes the order
status to `"Completed"`. -/
theorem c4_derive_order_status :
    (∀ items : List OrderItemRec,
        (deriveOrderStatus items = "Completed" ↔
          items ≠ [] ∧ ∀ i ∈ items, i.status = "Completed") ∧
        (deriveOrderStatus items = "Pending" ↔
          ¬(items ≠ [] ∧ ∀ i ∈ items, i.status = "Completed"))) ∧
    deriveOrderStatus [] = "Pending" ∧
    deriveOrderStatus [⟨some 7, "dish", 10, 1, "Pending"⟩] = "Pending" ∧
    patchItemStatus ⟨1, "Pending", 0, [⟨some 7, "dish", 10, 1, "Pending"⟩]⟩ 7 "Completed" =
      some ⟨1, "Completed", 0, [⟨some 7, "dish", 10, 1, "Completed"⟩]⟩ := by
  refine ⟨fun items => ?_, rfl, rfl, rfl⟩
  have key : deriveOrderStatus items = "Completed" ↔
      items ≠ [] ∧ ∀ i ∈ items, i.status = "Completed" := by
    simp only [deriveOrderStatus]
    split_ifs with h
    · refine iff_of_true rfl ⟨List.length_pos.mp h.2, fun i hi => ?_⟩
      simpa using List.all_eq_true.mp h.1 i hi
    · refine iff_of_false (by decide) fun ⟨hne, hall⟩ => h ?_
      exact ⟨List.all_eq_true.mpr fun i hi => by simpa using hall i hi, List.length_pos.mpr hne⟩
  have tot : deriveOrderStatus items = "Completed" ∨ deriveOrderStatus items = "Pending" := by
    simp only [deriveOrderStatus]
    split_ifs <;> simp
  refine ⟨key, ?_, ?_⟩
  · intro hp hcond
    have hc := key.mpr hcond
    rw [hp] at hc
    exact absurd hc (by decide)
  · intro hn
    rcases tot with h | h
    · exact absurd (key.mp h) hn
    · exact h

theorem subMap_zero (inv : List InventoryItem) : subMap (fun _ _ => 0) inv = inv := by
  unfold subMap
  have h : (fun it : InventoryItem => { it with quantity := it.quantity - 0 }) = id := by
    funext it
    simp
  rw [h, List.map_id]

theorem subMap_congr {f g : String → ℤ → ℚ} (h : ∀ n b, f n b = g n b)
    (inv : List InventoryItem) : subMap f inv = subMap g inv := by
  unfold subMap
  congr 1
  funext it
  rw [h]

theorem subMap_subMap (f g : String → ℤ → ℚ) (inv : List InventoryItem) :
    subMap g (subMap f inv) = subMap (fun n b => f n b + g n b) inv := by
  unfold subMap
  rw [List.map_map]
  congr 1
  funext it
  simp [Function.comp, sub_sub]

theorem decrementInventory_eq (inv : List InventoryItem) (n : String) (b : ℤ) (a : ℚ) :
    decrementInventory inv n b a =
      subMap (fun nm bid => if nm = n ∧ bid = b then a else 0) inv := by
  unfold decrementInventory subMap
  congr 1
  funext it
  by_cases hc : it.name = n ∧ it.businessId = b
  · simp [hc]
  · simp [hc]

theorem applyIngredient_eq (bId : ℤ) (qty : ℚ) (inv : List InventoryItem) (ing : Ingredient) :
    applyIngredient bId qty inv ing =
      subMap (fun nm bid => if nm = ing.name ∧ bid = bId then ing.quantity.getD 0 * qty else 0)
        inv := by
  cases hq : ing.quantity with
  | none =>
    calc applyIngredient bId qty inv ing = inv := by simp [applyIngredient, hq]
      _ = subMap (fun _ _ => 0) inv := (subMap_zero inv).symm
      _ = _ := subMap_congr (fun nm bid => by split <;> simp) inv
  | some q =>
    calc applyIngredient bId qty inv ing
        = decrementInventory inv ing.name bId (q * qty) := by simp [applyIngredient, hq]
      _ = subMap (fun nm bid => if nm = ing.name ∧ bid = bId then q * qty else 0) inv :=
          decrementInventory_eq ..
      _ = _ := subMap_congr (fun nm bid => rfl) inv

theorem foldl_applyIngredient (bId : ℤ) (qty : ℚ) (ings : List Ingredient)
    (inv : List InventoryItem) :
    ings.foldl (applyIngredient bId qty) inv =
      subMap (fun nm bid => if bid = bId then ingredientRequirement nm qty ings else 0) inv := by
  induction ings generalizing inv with
  | nil =>
    have h : ∀ nm bid,
        (0 : ℚ) = if bid = bId then ingredientRequirement nm qty [] else 0 := by
      intro nm bid
      simp [ingredientRequirement]
    calc ([] : List Ingredient).foldl (applyIngredient bId qty) inv = inv := rfl
      _ = subMap (fun _ _ => 0) inv := (subMap_zero inv).symm
      _ = _ := subMap_congr h inv
  | cons ing rest ih =>
    rw [List.foldl_cons, applyIngredient_eq, ih, subMap_subMap]
    refine subMap_congr (fun nm bid => ?_) inv
    simp only [ingredientRequirement, List.map_cons, List.sum_cons]
    by_cases hb : bid = bId
    · by_cases hn : ing.name = nm
      · simp [hb, hn]
      · have hn' : ¬nm = ing.name := fun hh => hn hh.symm
        simp [hb, hn, hn']
    · have hc : ¬(nm = ing.name ∧ bid = bId) := fun ⟨_, h2⟩ => hb h2
      simp [hb, hc]

theorem applyCartItem_eq (products : ℤ → Option Dish) (b : ℤ) (inv : List InventoryItem)
    (item : CartItem) :
    applyCartItem products b inv item =
      subMap (fun nm bid =>
        if bid = b then
          (match products item.productId with
           | some dish => ingredientRequirement nm item.quantity (ingredientsOf dish.metadata)
           | none => 0)
        else 0) inv := by
  cases hp : products item.productId with
  | none =>
    calc applyCartItem products b inv item = inv := by simp [applyCartItem, hp]
      _ = subMap (fun _ _ => 0) inv := (subMap_zero inv).symm
      _ = _ := subMap_congr (fun nm bid => by split <;> rfl) inv
  | some dish =>
    calc applyCartItem products b inv item
        = (ingredientsOf dish.metadata).foldl (applyIngredient b item.quantity) inv := by
          simp [applyCartItem, hp]
      _ = subMap (fun nm bid =>
            if bid = b then ingredientRequirement nm item.quantity (ingredientsOf dish.metadata)
            else 0) inv := foldl_applyIngredient ..
      _ = _ := subMap_congr (fun nm bid => rfl) inv

theorem foldl_applyCartItem (products : ℤ → Option Dish) (b : ℤ) (cart : List CartItem)
    (inv : List InventoryItem) :
    cart.foldl (applyCartItem products b) inv =
      subMap (fun nm bid => if bid = b then requiredDeduction products cart nm else 0) inv := by
  induction cart generalizing inv with
  | nil =>
    have h : ∀ nm bid, (0 : ℚ) = if bid = b then requiredDeduction products [] nm else 0 := by
      intro nm bid
      simp [requiredDeduction]
    calc ([] : List CartItem).foldl (applyCartItem products b) inv = inv := rfl
      _ = subMap (fun _ _ => 0) inv := (subMap_zero inv).symm
      _ = _ := subMap_congr h inv
  | cons item rest ih =>
    rw [List.foldl_cons, applyCartItem_eq, ih, subMap_subMap]
    refine subMap_congr (fun nm bid => ?_) inv
    simp only [requiredDeduction, List.map_cons, List.sum_cons]
    by_cases hb : bid = b
    · simp [hb]
    · simp [hb]

/-- C9: the inventory pass of order placement is total (it always returns an
updated table, never an error), and it decrements exactly the rows whose
`businessId` matches the order's, each by the sum over the cart of
`ingredient.quantity * item.quantity` for the recipe ingredients naming that
row — an ingredient whose quantity is `NaN` after numeric conversion (modelled
`none`) contributing nothing, i.e. skipped silently. -/
theorem c9_inventory_decrement (products : ℤ → Option Dish) (businessId : ℤ)
    (inv : List InventoryItem) (cart : List CartItem) :
    applyOrderInventory products businessId inv cart =
      inv.map fun it =>
        { it with quantity := it.quantity -
            (if it.businessId = businessId then requiredDeduction products cart it.name
             else 0) } :=
  foldl_applyCartItem products businessId cart inv

theorem reaperLoop_cons (cf : String → Bool) (df : ℤ → Bool) (b : BillRow) (rest : List BillRow) :
    reaperLoop cf df (b :: rest) =
      if df b.id then (cloudEventsOf cf b, true)
      else (cloudEventsOf cf b ++ .rowDeleted b.id :: (reaperLoop cf df rest).1,
        (reaperLoop cf df rest).2) := by
  by_cases h : df b.id <;> simp [reaperLoop, h]

theorem rowDeleted_not_mem_cloudEventsOf (cf : String → Bool) (b : BillRow) (i : ℤ) :
    ReaperEvent.rowDeleted i ∉ cloudEventsOf cf b := by
  cases hb : b.billStorePublicId with
  | none => simp [cloudEventsOf, hb]
  | some pid =>
    by_cases hcf : cf pid <;> simp [cloudEventsOf, deleteFromCloudinary, hb, hcf]

theorem deletedIds_cloudEventsOf (cf : String → Bool) (b : BillRow) :
    deletedIds (cloudEventsOf cf b) = [] := by
  cases hb : b.billStorePublicId with
  | none => simp [deletedIds, cloudEventsOf, hb]
  | some pid =>
    by_cases hcf : cf pid <;>
      simp [deletedIds, cloudEventsOf, deleteFromCloudinary, hb, hcf]

theorem count_destroy_cloudEventsOf (cf : String → Bool) (b : BillRow) (p : String) :
    (cloudEventsOf cf b).count (ReaperEvent.cloudinaryDestroy p) =
      if b.billStorePublicId = some p then 1 else 0 := by
  cases hb : b.billStorePublicId with
  | none => simp [cloudEventsOf, hb]
  | some pid =>
    by_cases hp : pid = p
    · subst hp
      by_cases hcf : cf pid <;>
        simp [cloudEventsOf, deleteFromCloudinary, hb, hcf, List.count_cons]
    · have hsome : ¬(some pid = some p) := by simp [hp]
      by_cases hcf : cf pid <;>
        simp [cloudEventsOf, deleteFromCloudinary, hb, hcf, hp, hsome, List.count_cons]

theorem deletedIds_append (l₁ l₂ : List ReaperEvent) :
    deletedIds (l₁ ++ l₂) = deletedIds l₁ ++ deletedIds l₂ :=
  List.filterMap_append ..

theorem reaperLoop_aborted (cf : String → Bool) (df : ℤ → Bool) (l : List BillRow) :
    (reaperLoop cf df l).2 = l.any fun b => df b.id := by
  induction l with
  | nil => rfl
  | cons b rest ih =>
    rw [reaperLoop_cons]
    by_cases h : df b.id <;> simp [h, ih]

theorem reaperLoop_deletedIds (cf : String → Bool) (df : ℤ → Bool) (l : List BillRow) :
    deletedIds (reaperLoop cf df l).1 = ((l.takeWhile fun b => !df b.id).map BillRow.id) := by
  induction l with
  | nil => rfl
  | cons b rest ih =>
    rw [reaperLoop_cons]
    by_cases h : df b.id
    · rw [if_pos h]
      simp [deletedIds_cloudEventsOf cf b, List.takeWhile_cons, h]
    · rw [if_neg h]
      have hsplit : deletedIds
          (cloudEventsOf cf b ++ ReaperEvent.rowDeleted b.id :: (reaperLoop cf df rest).1) =
          deletedIds (cloudEventsOf cf b) ++ b.id :: deletedIds (reaperLoop cf df rest).1 := by
        rw [deletedIds_append]
        rfl
      rw [hsplit, deletedIds_cloudEventsOf, ih]
      simp [List.takeWhile_cons, h]

theorem reaperLoop_rowDeleted_mem (cf : String → Bool) (l : List BillRow) (i : ℤ) :
    ReaperEvent.rowDeleted i ∈ (reaperLoop cf (fun _ => false) l).1 ↔
      i ∈ l.map BillRow.id := by
  induction l with
  | nil => simp [reaperLoop]
  | cons b rest ih =>
    rw [reaperLoop_cons]
    simp only [if_neg Bool.false_ne_true, List.mem_append, List.mem_cons, List.map_cons]
    constructor
    · rintro (hc | hh | hr)
      · exact absurd hc (rowDeleted_not_mem_cloudEventsOf cf b i)
      · exact Or.inl (by injection hh)
      · exact Or.inr (ih.mp hr)
    · rintro (hh | hr)
      · exact Or.inr (Or.inl (by rw [hh]))
      · exact Or.inr (Or.inr (ih.mpr hr))

theorem reaperLoop_count_destroy (cf : String → Bool) (l : List BillRow) (p : String) :
    (reaperLoop cf (fun _ => false) l).1.count (ReaperEvent.cloudinaryDestroy p) =
      (l.filterMap BillRow.billStorePublicId).count p := by
  induction l with
  | nil => rfl
  | cons b rest ih =>
    rw [reaperLoop_cons]
    simp only [if_neg Bool.false_ne_true, List.count_append, List.count_cons,
      List.filterMap_cons]
    rw [count_destroy_cloudEventsOf]
    cases hb : b.billStorePublicId with
    | none => simp [hb, ih]
    | some pid =>
      by_cases hp : pid = p
      · subst hp
        simp [hb, ih, List.count_cons]
        omega
      · simp [hb, ih, List.count_cons, hp, Ne.symm hp]

theorem reaperLoop_destroy_before_delete (cf : String → Bool) (l : List BillRow) (b : BillRow)
    (p : String) (hb : b ∈ l) (hpid : b.billStorePublicId = some p) :
    ∃ l₁ l₂ l₃, (reaperLoop cf (fun _ => false) l).1 =
      l₁ ++ ReaperEvent.cloudinaryDestroy p :: l₂ ++ ReaperEvent.rowDeleted b.id :: l₃ := by
  induction l with
  | nil => cases hb
  | cons c rest ih =>
    rw [reaperLoop_cons]
    simp only [if_neg Bool.false_ne_true]
    rcases List.mem_cons.mp hb with rfl | hbr
    · refine ⟨[], [if cf p then ReaperEvent.cloudinaryFailLogged p
          else ReaperEvent.cloudinaryDeleteLogged p], (reaperLoop cf (fun _ => false) rest).1, ?_⟩
      unfold cloudEventsOf deleteFromCloudinary
      rw [hpid]
      by_cases hcf : cf p <;> simp [hcf]
    · obtain ⟨l₁, l₂, l₃, heq⟩ := ih hbr
      exact ⟨cloudEventsOf cf c ++ ReaperEvent.rowDeleted c.id :: l₁, l₂, l₃, by
        rw [heq]; simp⟩

/-- C5 (counterexample): a failure while processing one bill *does* prevent the
remaining expired bills from being processed.  With two expired bills and a row
deletion that fails only for bill 1, bill 2 — itself expired, with a
non-failing deletion — is never deleted, because the single `try`/`catch`
wrapping the whole loop aborts the batch. -/
theorem c5_reaper_batch_counterexample :
    isExpired 0 ⟨2, none, some 0⟩ = true ∧
    ((fun i : ℤ => i == 1) 2 = false) ∧
    ReaperEvent.rowDeleted 2 ∉
      (reaperRun 0 [⟨1, none, some 0⟩, ⟨2, none, some 0⟩] (fun _ => false)
        fun i => i == 1).1 := by
  decide

/-- C5 (amended): a failure of the external image-delete call never prevents
anything — the set of deleted rows and the abort flag of a reaper run are
independent of which Cloudinary calls fail (the failure is caught inside
`deleteFromCloudinary`) — but a failure of a bill's *row deletion* aborts the
whole batch: the rows actually deleted are exactly the longest prefix of the
expired list on which row deletion succeeds, and the run ends in the outer
`catch` exactly when some expired bill's row deletion fails. -/
theorem c5_reaper_failure_handling :
    (∀ (now : ℤ) (bills : List BillRow) (cf cf' : String → Bool) (df : ℤ → Bool),
        deletedIds (reaperRun now bills cf df).1 = deletedIds (reaperRun now bills cf' df).1 ∧
        (reaperRun now bills cf df).2 = (reaperRun now bills cf' df).2) ∧
    (∀ (now : ℤ) (bills : List BillRow) (cf : String → Bool) (df : ℤ → Bool),
        deletedIds (reaperRun now bills cf df).1 =
          ((bills.filter (isExpired now)).takeWhile fun b => !df b.id).map BillRow.id) ∧
    (∀ (now : ℤ) (bills : List BillRow) (cf : String → Bool) (df : ℤ → Bool),
        (reaperRun now bills cf df).2 = (bills.filter (isExpired now)).any fun b => df b.id) := by
  refine ⟨fun now bills cf cf' df => ⟨?_, ?_⟩, fun now bills cf df => ?_,
    fun now bills cf df => ?_⟩
  · simp only [reaperRun, reaperLoop_deletedIds]
  · simp only [reaperRun, reaperLoop_aborted]
  · exact reaperLoop_deletedIds ..
  · exact reaperLoop_aborted ..

/-- C6: with no row-deletion failures, a reaper run never aborts, deletes the
row of a bill iff its `expiresAt` is at or before now (null `expiresAt` is
never selected), invokes the external delete exactly once with the stored
public id of each expired bill that has one — and does so before deleting that
bill's row — and makes no external call except for the stored ids of expired
bills (so a bill without a stored id causes no external call). -/
theorem c6_reaper_selection (now : ℤ) (bills : List BillRow) (cf : String → Bool)
    (hids : (bills.map BillRow.id).Nodup)
    (hpids : (bills.filterMap BillRow.billStorePublicId).Nodup) :
    (reaperRun now bills cf (fun _ => false)).2 = false ∧
    (∀ b ∈ bills, (ReaperEvent.rowDeleted b.id ∈ (reaperRun now bills cf (fun _ => false)).1 ↔
        isExpired now b = true)) ∧
    (∀ b ∈ bills, isExpired now b = true → ∀ p, b.billStorePublicId = some p →
        (reaperRun now bills cf (fun _ => false)).1.count (ReaperEvent.cloudinaryDestroy p) = 1 ∧
        ∃ l₁ l₂ l₃, (reaperRun now bills cf (fun _ => false)).1 =
          l₁ ++ ReaperEvent.cloudinaryDestroy p :: l₂ ++ ReaperEvent.rowDeleted b.id :: l₃) ∧
    (∀ p, ReaperEvent.cloudinaryDestroy p ∈ (reaperRun now bills cf (fun _ => false)).1 →
        p ∈ (bills.filter (isExpired now)).filterMap BillRow.billStorePublicId) := by
  simp only [reaperRun]
  refine ⟨?_, ?_, ?_, ?_⟩
  · rw [reaperLoop_aborted]
    simp
  · intro b hb
    rw [reaperLoop_rowDeleted_mem]
    constructor
    · intro hmem
      obtain ⟨b', hb', hid⟩ := List.mem_map.mp hmem
      have hb'bills : b' ∈ bills := (List.mem_filter.mp hb').1
      have hbb : b' = b := List.inj_on_of_nodup_map hids hb'bills hb hid
      rw [← hbb]
      exact (List.mem_filter.mp hb').2
    · intro hexp
      exact List.mem_map.mpr ⟨b, List.mem_filter.mpr ⟨hb, hexp⟩, rfl⟩
  · intro b hb hexp p hp
    have hbexp : b ∈ bills.filter (isExpired now) := List.mem_filter.mpr ⟨hb, hexp⟩
    refine ⟨?_, reaperLoop_destroy_before_delete cf _ b p hbexp hp⟩
    rw [reaperLoop_count_destroy]
    have hpmem : p ∈ (bills.filter (isExpired now)).filterMap BillRow.billStorePublicId :=
      List.mem_filterMap.mpr ⟨b, hbexp, hp⟩
    have hnd : ((bills.filter (isExpired now)).filterMap BillRow.billStorePublicId).Nodup :=
      hpids.sublist ((List.filter_sublist bills).filterMap BillRow.billStorePublicId)
    exact List.count_eq_one_of_mem hnd hpmem
  · intro p hp
    have h1 : 0 < (reaperLoop cf (fun _ => false)
        (bills.filter (isExpired now))).1.count (ReaperEvent.cloudinaryDestroy p) :=
      List.count_pos_iff.mpr hp
    rw [reaperLoop_count_destroy] at h1
    exact List.count_pos_iff.mp h1

/-- Witness for C6: a run over one expired bill carrying public id `"p1"` and
one unexpired bill; the expired bill's row is deleted. -/
theorem c6_reaper_selection_witness :
    (([⟨1, some "p1", some 0⟩, ⟨2, none, some 5⟩] : List BillRow).map BillRow.id).Nodup ∧
    (([⟨1, some "p1", some 0⟩, ⟨2, none, some 5⟩] : List BillRow).filterMap
      BillRow.billStorePublicId).Nodup ∧
    ReaperEvent.rowDeleted 1 ∈
      (reaperRun 3 [⟨1, some "p1", some 0⟩, ⟨2, none, some 5⟩] (fun _ => false)
        (fun _ => false)).1 :=
  ⟨by decide, by decide,
    ((c6_reaper_selection 3 [⟨1, some "p1", some 0⟩, ⟨2, none, some 5⟩] (fun _ => false)
      (by decide) (by decide)).2.1 ⟨1, some "p1", some 0⟩ (by decide)).mpr (by decide)⟩

/-- C10: when the bill found for an order has a non-null `expiresAt` strictly
before now, the GET-bill read still returns the bill row — the read deletes
nothing, the bills table is unchanged — but with `billStoreLink` and
`modifiedBillStoreLink` replaced by null in the response, every other field
intact. -/
theorem c10_get_bill_masks_expired (now : ℤ) (bills : List BillRec) (orderId : ℤ)
    (b : BillRec) (t : ℤ) (hfind : (bills.find? fun b' => b'.orderId == orderId) = some b)
    (hexp : b.expiresAt = some t) (ht : t < now) :
    (getBillHandler now bills orderId).1 = bills ∧
    (getBillHandler now bills orderId).2 =
      some { b with billStoreLink := none, modifiedBillStoreLink := none } := by
  refine ⟨rfl, ?_⟩
  simp only [getBillHandler, hfind, Option.map_some']
  unfold maskExpiredLinks
  rw [hexp]
  simp [ht]

/-- Witness for C10: a bill that expired at time 0, read at time 5, comes back
with both store links nulled. -/
theorem c10_get_bill_masks_expired_witness :
    (getBillHandler 5
        [⟨1, some 10, none, none, none, 110, some "link", some "pub", some "mlink", some "mpub",
          some 0⟩] 1).2 =
      some { (⟨1, some 10, none, none, none, 110, some "link", some "pub", some "mlink",
        some "mpub", some 0⟩ : BillRec) with
          billStoreLink := none, modifiedBillStoreLink := none } :=
  (c10_get_bill_masks_expired 5
    [⟨1, some 10, none, none, none, 110, some "link", some "pub", some "mlink", some "mpub",
      some 0⟩] 1
    ⟨1, some 10, none, none, none, 110, some "link", some "pub", some "mlink", some "mpub",
      some 0⟩ 0 rfl rfl (by decide)).2

end Restaurant
